import Mathlib

/- A shallow embedding of kilo-rs (src/main.rs), a terminal text editor, together
with proofs about its key decoder, text-buffer operations, viewport scrolling and
renderer.  Lines are modelled as lists of characters (the source indexes Rust
strings by byte and the spec fixes single-byte characters for column arithmetic).
I/O is modelled explicitly: the key decoder takes the pending input bytes as data
(with `none` standing for a timed-out read), the save path takes the success of the
two fallible file operations as booleans, and the renderer returns the list of
strings passed to the write-and-flush helper, in order.  Process exit is modelled
by `Option`: `process_key` returns `none` when the process terminates. -/

namespace Kilo

/-- Tab stop, `const TAB_STOP: usize = 8`. -/
def TAB_STOP : Nat := 8

/-- Quit-confirmation strike count, `const QUIT_TIMES: usize = 3`. -/
def QUIT_TIMES : Nat := 3

/-- The `Key` enum of the source.  Byte payloads are naturals below 256. -/
inductive Key where
  | Char (b : Nat)
  | Ctrl (b : Nat)
  | Left
  | Right
  | Up
  | Down
  | Del
  | Home
  | End
  | PageUp
  | PageDown
  | Return
  | Backspace
deriving DecidableEq, Repr

/-- One text line; the source stores a Rust `String`. -/
abbrev Row := List Char

/-- The editor state (the fields of `struct Editor` that carry program data; the
terminal handle and the wall-clock timestamp of the status message are not
representable as data and are omitted). -/
structure EState where
  rows : List Row
  cx : Nat
  cy : Nat
  rx : Nat
  rowoff : Nat
  coloff : Nat
  numrows : Nat
  numcols : Nat
  dirty : Bool
  quit_times : Nat
  filename : Option Row
  status_msg : Row
deriving DecidableEq, Repr

/-- The state produced by `Editor::new()` (window size defaulted, before `init`). -/
def new_editor : EState :=
  { rows := [], cx := 0, cy := 0, rx := 0, rowoff := 0, coloff := 0,
    numrows := 25, numcols := 80, dirty := false, quit_times := QUIT_TIMES,
    filename := none, status_msg := [] }

/-- `Editor::open`: replace the rows with the file content split into lines,
record the filename, clear the dirty flag. -/
def open_file (lines : List Row) (name : Row) (st : EState) : EState :=
  { st with rows := lines, filename := some name, dirty := false }

/-! ## Key decoding (`read_key`) -/

/-- The tail of `read_key` after the escape-sequence block: byte 127 is
`Backspace`, a byte equal to its own low five bits is `Ctrl(byte | 0x60)`, and
anything else is `Char(byte)`. -/
def read_key_tail (b : Nat) : Key :=
  if b = 127 then .Backspace
  else if b.land 0x1f = b then .Ctrl (b.lor 0x60)
  else .Char b

/-- `read_key`.  `b` is the first byte read (the blocking loop guarantees one
arrives); `pending` gives the results of the successive `read_char` calls, with
`none` meaning the ~100ms timed read returned no byte. -/
def read_key (b : Nat) (pending : List (Option Nat)) : Key :=
  if b = 0x1b then
    match pending.getD 0 none with
    | none => .Char 0x1b
    | some s0 =>
      match pending.getD 1 none with
      | none => .Char 0x1b
      | some s1 =>
        if s0 = 0x5b then
          if 0x30 ≤ s1 ∧ s1 ≤ 0x39 then
            match pending.getD 2 none with
            | none => .Char 0x1b
            | some s2 =>
              if s2 = 0x7e then
                if s1 = 0x31 ∨ s1 = 0x37 then .Home
                else if s1 = 0x32 ∨ s1 = 0x38 then .End
                else if s1 = 0x33 then .Del
                else if s1 = 0x35 then .PageUp
                else if s1 = 0x36 then .PageDown
                else .Char 0x1b
              else read_key_tail b
          else
            if s1 = 0x41 then .Up
            else if s1 = 0x42 then .Down
            else if s1 = 0x43 then .Right
            else if s1 = 0x44 then .Left
            else if s1 = 0x48 then .Home
            else if s1 = 0x46 then .End
            else .Char 0x1b
        else if s0 = 0x4f then
          if s1 = 0x48 then .Home
          else if s1 = 0x46 then .End
          else read_key_tail b
        else read_key_tail b
  else read_key_tail b

/-! ## Column translation and tab rendering -/

/-- One step of the `cx_to_rx` loop: a tab advances to the next multiple of the
tab stop, any other character advances by one. -/
def rx_step (rx : Nat) (c : Char) : Nat :=
  if c = '\t' then rx + (TAB_STOP - rx % TAB_STOP) else rx + 1

/-- `cx_to_rx`: walk the first `cx` characters of the line accumulating the
rendered column. -/
def cx_to_rx (s : Row) (cx : Nat) : Nat :=
  (s.take cx).foldl rx_step 0

/-- `String::render`: expand each tab to spaces up to the next multiple of the
tab stop. -/
def render (s : Row) : Row :=
  s.foldl
    (fun res c =>
      if c = '\t' then res ++ List.replicate (TAB_STOP - res.length % TAB_STOP) ' '
      else res ++ [c])
    []

/-! ## Cursor movement -/

/-- The `match key` block of `move_cursor` (before the final clamp). -/
def move_cursor_step (st : EState) (key : Key) : EState :=
  match key with
  | .Left =>
      if 0 < st.cx then { st with cx := st.cx - 1 }
      else if 0 < st.cy then
        { st with cy := st.cy - 1, cx := (st.rows.getD (st.cy - 1) []).length }
      else st
  | .Right =>
      if st.cy < st.rows.length then
        if st.cx < (st.rows.getD st.cy []).length then { st with cx := st.cx + 1 }
        else { st with cy := st.cy + 1, cx := 0 }
      else st
  | .Up => if 0 < st.cy then { st with cy := st.cy - 1 } else st
  | .Down => if st.cy < st.rows.length then { st with cy := st.cy + 1 } else st
  | _ => st

/-- The final clamp of `move_cursor`: `cx` is capped at the length of the current
row (zero on the virtual trailing line). -/
def clamp_cx (st : EState) : EState :=
  let rowlen := if st.cy < st.rows.length then (st.rows.getD st.cy []).length else 0
  if rowlen < st.cx then { st with cx := rowlen } else st

/-- `move_cursor`: directional step followed by the clamp. -/
def move_cursor (st : EState) (key : Key) : EState :=
  clamp_cx (move_cursor_step st key)

/-- The `for _ in 0..n { move_cursor(key) }` loop of the page-move arms. -/
def iter_move (st : EState) (key : Key) : Nat → EState
  | 0 => st
  | n + 1 => iter_move (move_cursor st key) key n

/-! ## Buffer edits -/

/-- `insert_char`. -/
def insert_char (st : EState) (c : Char) : EState :=
  let rows := if st.cy = st.rows.length then st.rows ++ [[]] else st.rows
  let row := rows.getD st.cy []
  let row' :=
    if row.length ≤ st.cx then row ++ [c]
    else row.take st.cx ++ [c] ++ row.drop st.cx
  { st with rows := rows.set st.cy row', cx := st.cx + 1, dirty := true }

/-- `del_char`. -/
def del_char (st : EState) : EState :=
  if st.cy = st.rows.length then st
  else if st.cx = 0 ∧ st.cy = 0 then st
  else if 0 < st.cx then
    let row := st.rows.getD st.cy []
    { st with cx := st.cx - 1,
              rows := st.rows.set st.cy (row.take (st.cx - 1) ++ row.drop st.cx),
              dirty := true }
  else
    let prev := st.rows.getD (st.cy - 1) []
    let cur := st.rows.getD st.cy []
    { st with cx := prev.length,
              rows := (st.rows.set (st.cy - 1) (prev ++ cur)).eraseIdx st.cy,
              cy := st.cy - 1,
              dirty := true }

/-- `rows_to_string`: join with newlines and append one trailing newline. -/
def rows_to_string (rows : List Row) : Row :=
  List.intercalate ['\n'] rows ++ ['\n']

/-- `save`.  `createOk` is whether `File::create` succeeds, `writeOk` whether the
subsequent `write` succeeds; the result pairs the new state with the returned
`Result<usize>`. -/
def save (createOk writeOk : Bool) (st : EState) : EState × Except Row Nat :=
  match st.filename with
  | some _ =>
      if createOk then
        if writeOk then
          ({ st with dirty := false }, .ok (rows_to_string st.rows).length)
        else (st, .error "write failed".data)
      else (st, .error "create failed".data)
  | none => (st, .ok 0)

/-! ## Scrolling -/

/-- The row-offset clamping at the top of `scroll`. -/
def scroll_row (st : EState) : EState :=
  let st := if st.cy < st.rowoff then { st with rowoff := st.cy } else st
  if st.rowoff + st.numrows ≤ st.cy then { st with rowoff := st.cy - st.numrows + 1 }
  else st

/-- The `rx` recomputation in the middle of `scroll`. -/
def scroll_rx (st : EState) : EState :=
  { st with rx := if st.cy < st.rows.length then cx_to_rx (st.rows.getD st.cy []) st.cx else 0 }

/-- The column-offset clamping at the bottom of `scroll`. -/
def scroll_col (st : EState) : EState :=
  let st := if st.rx < st.coloff then { st with coloff := st.rx } else st
  if st.coloff + st.numcols ≤ st.rx then { st with coloff := st.rx - st.numcols + 1 }
  else st

/-- `scroll`. -/
def scroll (st : EState) : EState :=
  scroll_col (scroll_rx (scroll_row st))

/-! ## Key dispatch (`process_key`) -/

/-- The status message of the quit warning. -/
def quit_warning (n : Nat) : Row :=
  "WARNING!!! File has unsaved changes. Press Ctrl-Q ".data
    ++ (Nat.repr n).data ++ " more times to quit".data

/-- The `Ctrl-S` arm of `process_key`: run `save` and report the byte count or
the I/O error in the status message. -/
def save_arm (createOk writeOk : Bool) (st : EState) : EState :=
  match save createOk writeOk st with
  | (st1, .ok n) =>
      { st1 with status_msg := (Nat.repr n).data ++ " bytes written to disk".data }
  | (st1, .error e) =>
      { st1 with status_msg := "Can\x27t save! I/O error: ".data ++ e }

/-- The `match c` dispatch block of `process_key` (everything after the Ctrl-Q
check and before the quit-counter reset).  The source is one `match` with arms
in this order: arrows, page keys, Home, End, `Ctrl('s')`, `Char('\r')`,
`Backspace | Del | Ctrl('h')`, `Ctrl('l') | Char(ESC)`, `Char(c)`, wildcard;
since the `Key` constructors are disjoint, the first-match semantics is
reproduced below per constructor, with the byte tests of same-constructor arms
kept in source order. -/
def dispatch_key (createOk writeOk : Bool) (st : EState) (k : Key) : EState :=
  match k with
  | .Up => move_cursor st .Up
  | .Down => move_cursor st .Down
  | .Left => move_cursor st .Left
  | .Right => move_cursor st .Right
  | .PageUp => iter_move { st with cy := st.rowoff } .Up st.numrows
  | .PageDown =>
      let cy1 := st.rowoff + st.numrows - 1
      iter_move { st with cy := if st.rows.length < cy1 then st.rows.length else cy1 }
        .Down st.numrows
  | .Home => { st with cx := 0 }
  | .End =>
      if st.cy < st.rows.length then { st with cx := (st.rows.getD st.cy []).length }
      else { st with cx := 0 }
  | .Ctrl b =>
      if b = 0x73 then save_arm createOk writeOk st
      else if b = 0x68 then del_char st
      else if b = 0x6c then st
      else st
  | .Char b =>
      if b = 0x0d then st
      else if b = 0x1b then st
      else insert_char st (Char.ofNat b)
  | .Backspace => del_char st
  | .Del => del_char (move_cursor st .Right)
  | .Return => st

/-- `process_key` on an already-decoded key.  Returns `none` when the process
exits (the `self.exit(0)` path); otherwise the new state, with the quit counter
reset to its maximum on every path that reaches the end of the function. -/
def process_key (createOk writeOk : Bool) (st : EState) (k : Key) : Option EState :=
  if k = .Ctrl 0x71 then
    if st.dirty ∧ 0 < st.quit_times then
      some { st with status_msg := quit_warning st.quit_times,
                     quit_times := st.quit_times - 1 }
    else none
  else
    some { dispatch_key createOk writeOk st k with quit_times := QUIT_TIMES }

/-- `n` consecutive quit-key presses with no intervening keys, starting from
the given run state (`none` means the process has already exited). -/
def press_quit (createOk writeOk : Bool) : Nat → Option EState → Option EState
  | 0, o => o
  | n + 1, o => press_quit createOk writeOk n (o.bind fun s => process_key createOk writeOk s (.Ctrl 0x71))

/-! ## Rendering (`refresh_screen` and the draw helpers)

Each helper below returns the single string it passes to `Editor::write` (which
performs one `write!` followed by one `flush`); `refresh_screen` returns the list
of those strings in order, one element per write-and-flush call. -/

/-- The body of `draw_rows`'s loop for one screen row `y`, appended to `s`. -/
def draw_row (version : Row) (st : EState) (s : Row) (y : Nat) : Row :=
  let fileoff := y + st.rowoff
  let s :=
    if st.rows.length ≤ fileoff then
      if st.rows.isEmpty ∧ y = st.numrows / 3 then
        let welcome := "Kilo editor -- version ".data ++ version
        let padding := (st.numcols - welcome.length) / 2
        let s := if 0 < padding then s ++ ['~'] else s
        let padding := if 0 < padding then padding - 1 else padding
        s ++ List.replicate padding ' ' ++ welcome
      else s ++ ['~']
    else
      let row := render (st.rows.getD fileoff [])
      if st.coloff < row.length then
        let line := row.drop st.coloff
        let line := if st.numcols < line.length then line.take st.numcols else line
        s ++ line
      else s
  s ++ "\x1b[K".data ++ "\r\n".data

/-- `draw_rows`: the string written for the text area.  The welcome banner's
version string (`CARGO_PKG_VERSION`, taken from the crate manifest, which is not
part of the source file) is a parameter. -/
def draw_rows (version : Row) (st : EState) : Row :=
  (List.range st.numrows).foldl (draw_row version st) []

/-- The padding/right-alignment loop of `draw_status_bar`, counting down the
remaining columns `r = numcols - i`. -/
def status_pad (linedesc : Row) : Nat → Row
  | 0 => []
  | r + 1 => if r + 1 = linedesc.length then linedesc else ' ' :: status_pad linedesc r

/-- `draw_status_bar`: the reverse-video bar with the (20-character-truncated)
filename, line count, modified marker, and right-aligned line indicator. -/
def draw_status_bar (st : EState) : Row :=
  let filedesc :=
    (st.filename.getD "[No Name]".data).take 20 ++ " - ".data
      ++ (Nat.repr st.rows.length).data ++ " lines ".data
      ++ (if st.dirty then "(modified)".data else [])
  let linedesc := (Nat.repr (st.cy + 1)).data ++ "/".data ++ (Nat.repr st.rows.length).data
  let line := if st.numcols < filedesc.length then filedesc.take st.numcols else filedesc
  "\x1b[7m".data ++ line ++ status_pad linedesc (st.numcols - line.length)
    ++ "\x1b[m".data ++ "\r\n".data

/-- `draw_message_bar`; `visible` models the five-second time-to-live check
against the wall clock. -/
def draw_message_bar (visible : Bool) (st : EState) : Row :=
  "\x1b[K".data
    ++ (if visible then
          (if st.numcols < st.status_msg.length then st.status_msg.take st.numcols
           else st.status_msg)
        else [])

/-- `refresh_screen`: scroll, then the six strings passed to `write` (each one a
write-and-flush), in order. -/
def refresh_screen (version : Row) (visible : Bool) (st : EState) : List Row :=
  let st := scroll st
  [ "\x1b[?25l\x1b[H".data,
    draw_rows version st,
    draw_status_bar st,
    draw_message_bar visible st,
    "\x1b[".data ++ (Nat.repr (st.cy - st.rowoff + 1)).data ++ ";".data
      ++ (Nat.repr (st.rx - st.coloff + 1)).data ++ "H".data,
    "\x1b[?25h".data ]

/-! ## Invariants -/

/-- The cursor invariant exactly as the specification states it: `cy` is at most
the line count, and on a real line `cx` is at most the line length. -/
def cursor_inv (st : EState) : Prop :=
  st.cy ≤ st.rows.length ∧
    (st.cy < st.rows.length → st.cx ≤ (st.rows.getD st.cy []).length)

instance (st : EState) : Decidable (cursor_inv st) := by
  unfold cursor_inv; infer_instance

/-- The strengthened cursor invariant: additionally, on the virtual trailing line
(`cy = len(lines)`) the column is zero. -/
def cursor_inv_strong (st : EState) : Prop :=
  st.cy ≤ st.rows.length ∧
    (st.cy < st.rows.length → st.cx ≤ (st.rows.getD st.cy []).length) ∧
    (st.cy = st.rows.length → st.cx = 0)

instance (st : EState) : Decidable (cursor_inv_strong st) := by
  unfold cursor_inv_strong; infer_instance

/-! ## Helper lemmas about the rendered-column walk -/

theorem rx_step_ge (rx : Nat) (c : Char) : rx + 1 ≤ rx_step rx c := by
  unfold rx_step TAB_STOP
  split
  · omega
  · omega

theorem foldl_rx_ge (l : List Char) (acc : Nat) : acc + l.length ≤ l.foldl rx_step acc := by
  induction l generalizing acc with
  | nil => simp
  | cons c t ih =>
    simp only [List.foldl_cons, List.length_cons]
    have h1 := rx_step_ge acc c
    have h2 := ih (rx_step acc c)
    omega

theorem foldl_rx_no_tab (l : List Char) (acc : Nat) (h : ∀ c ∈ l, c ≠ '\t') :
    l.foldl rx_step acc = acc + l.length := by
  induction l generalizing acc with
  | nil => simp
  | cons c t ih =>
    simp only [List.foldl_cons, List.length_cons]
    have hc : c ≠ '\t' := h c (List.mem_cons_self c t)
    rw [show rx_step acc c = acc + 1 by simp [rx_step, hc]]
    rw [ih (acc + 1) (fun x hx => h x (List.mem_cons_of_mem c hx))]
    omega

/-! ## Claim theorems -/

/-- Claim C2 (code bug): the source deviates from the spec on unmatched escape
sequences.  `ESC O A` and `ESC [ 3 A` fall through the `if`/`match` chain of
`read_key` into the control-byte branch and, since `0x1b & 0x1f == 0x1b`, decode
to `Ctrl(0x1b | 0x60) = Ctrl(0x7b)` rather than the literal `Char(0x1b)` the spec
promises (a lone timed-out `ESC` does give `Char(0x1b)`). -/
theorem c2_escape_divergence :
    read_key 0x1b [some 0x4f, some 0x41] = Key.Ctrl 0x7b ∧
    read_key 0x1b [some 0x5b, some 0x33, some 0x41] = Key.Ctrl 0x7b ∧
    read_key 0x1b [] = Key.Char 0x1b ∧
    Key.Ctrl 0x7b ≠ Key.Char 0x1b :=
  ⟨by decide, by decide, by decide, by decide⟩

/-- Claim C3 (amended): for every valid logical column, `rx ≥ cx`, and a
tab-free prefix forces `rx = cx`; the four concrete values for the line
`"a\tb"` hold.  (The converse — that equality forces a tab-free prefix — is
false; see the counterexample.) -/
theorem c3_rx_ge_cx :
    (∀ (s : Row) (cx : Nat), cx ≤ s.length →
        cx ≤ cx_to_rx s cx ∧ ((∀ c ∈ s.take cx, c ≠ '\t') → cx_to_rx s cx = cx)) ∧
    cx_to_rx "a\tb".data 0 = 0 ∧ cx_to_rx "a\tb".data 1 = 1 ∧
    cx_to_rx "a\tb".data 2 = 8 ∧ cx_to_rx "a\tb".data 3 = 9 := by
  refine ⟨?_, by decide, by decide, by decide, by decide⟩
  intro s cx h
  have hlen : (s.take cx).length = cx := by
    simp only [List.length_take]
    omega
  constructor
  · have h1 := foldl_rx_ge (s.take cx) 0
    rw [hlen] at h1
    unfold cx_to_rx
    omega
  · intro hnt
    unfold cx_to_rx
    rw [foldl_rx_no_tab _ 0 hnt, hlen]
    omega

/-- Claim C3, counterexample: on the line `"0123456\t"` the prefix of length 8
contains a tab, yet `rx = cx = 8` (the tab sits at rendered column 7 and so
advances by exactly one) — refuting the claimed "equality iff no tab". -/
theorem c3_counterexample :
    cx_to_rx "0123456\t".data 8 = 8 ∧
    ¬ (∀ c ∈ ("0123456\t".data).take 8, c ≠ '\t') :=
  ⟨by decide, by decide⟩

/-- Claim C3, witness: the amended theorem applied to concrete lines. -/
theorem c3_witness :
    3 ≤ cx_to_rx "a\tb".data 3 ∧ cx_to_rx "ab".data 2 = 2 :=
  ⟨(c3_rx_ge_cx.1 "a\tb".data 3 (by decide)).1,
   (c3_rx_ge_cx.1 "ab".data 2 (by decide)).2 (by decide)⟩

/-- Claim C4 (amended): every screen refresh performs exactly six
write-and-flush calls — hide-cursor+home, the text rows, the status bar, the
message bar, the cursor-reposition command, and show-cursor — each on its own
composed string, not a single combined write. -/
theorem c4_six_writes (version : Row) (visible : Bool) (st : EState) :
    (refresh_screen version visible st).length = 6 := rfl

/-- Claim C4, counterexample: on the freshly created editor the refresh does not
perform exactly one write-and-flush. -/
theorem c4_counterexample :
    (refresh_screen [] false new_editor).length ≠ 1 := by decide

/-- Claim C10 (confirmed): serializing the buffer loaded from `["x","y"]` gives
`"x\ny\n"`, and in general (for a nonempty buffer) serialization emits every
line followed by exactly one newline — i.e. lines joined by single newline
separators with a single trailing newline appended. -/
theorem c10_serialize :
    rows_to_string (open_file ["x".data, "y".data] [] new_editor).rows = "x\ny\n".data ∧
    ∀ rows : List Row, rows ≠ [] →
      rows_to_string rows = (rows.map (fun r => r ++ ['\n'])).flatten := by
  refine ⟨by decide, ?_⟩
  intro rows h
  induction rows with
  | nil => exact absurd rfl h
  | cons x t ih =>
    cases t with
    | nil => simp [rows_to_string, List.intercalate]
    | cons y t' =>
      have hs : rows_to_string (x :: y :: t') = x ++ ['\n'] ++ rows_to_string (y :: t') := by
        simp [rows_to_string, List.intercalate, List.append_assoc]
      rw [hs, ih (by simp)]
      simp [List.append_assoc]

/-- Claim C10, witness: the general serialization shape applied to a concrete
nonempty buffer. -/
theorem c10_witness :
    rows_to_string ["x".data] = (List.map (fun r => r ++ ['\n']) ["x".data]).flatten :=
  c10_serialize.2 ["x".data] (by decide)

/-- Claim C5 (confirmed): for any state with viewport height ≥ 1 and width ≥ 1,
after `scroll` the cursor line lies inside `[row_offset, row_offset + height)`
and the recomputed rendered column lies inside `[col_offset, col_offset + width)`,
where `rx` is recomputed from `cx` over the current line (zero on the virtual
trailing line). -/
theorem c5_scroll_visible (st : EState) (hr : 1 ≤ st.numrows) (hc : 1 ≤ st.numcols) :
    (scroll st).rowoff ≤ (scroll st).cy ∧
    (scroll st).cy < (scroll st).rowoff + (scroll st).numrows ∧
    (scroll st).coloff ≤ (scroll st).rx ∧
    (scroll st).rx < (scroll st).coloff + (scroll st).numcols ∧
    (scroll st).rx
      = (if st.cy < st.rows.length then cx_to_rx (st.rows.getD st.cy []) st.cx else 0) := by
  obtain ⟨rows, cx, cy, rx, rowoff, coloff, numrows, numcols, dirty, qt, fn, msg⟩ := st
  simp only [scroll, scroll_row, scroll_rx, scroll_col] at *
  split_ifs <;> simp_all <;> omega

/-- Claim C5, witness: the scroll invariant at a concrete state that needs both
row clamps. -/
theorem c5_witness :
    (scroll { new_editor with cy := 30, numrows := 10 }).rowoff
      ≤ (scroll { new_editor with cy := 30, numrows := 10 }).cy :=
  (c5_scroll_visible { new_editor with cy := 30, numrows := 10 } (by decide) (by decide)).1

/-- Claim C7 (confirmed): a failed save (whether `File::create` or the write
fails) returns the state exactly as it was — buffer and dirty flag included —
and the dirty flag is cleared only when the write succeeds (in which case the
returned byte count is the length of the serialized buffer). -/
theorem c7_save_failure (createOk writeOk : Bool) (st : EState) :
    (∀ e : Row, (save createOk writeOk st).2 = .error e → (save createOk writeOk st).1 = st) ∧
    (st.dirty = true → ((save createOk writeOk st).1).dirty = false →
      (save createOk writeOk st).2 = .ok (rows_to_string st.rows).length) := by
  unfold save
  cases hf : st.filename with
  | none =>
    refine ⟨fun e he => rfl, fun h1 h2 => ?_⟩
    simp only at h2
    rw [h1] at h2
    exact absurd h2 (by simp)
  | some p => cases createOk <;> cases writeOk <;> simp_all

/-- Claim C7, witness: a failing `File::create` leaves a dirty one-file state
untouched. -/
theorem c7_witness :
    (save false true { new_editor with filename := some [], dirty := true }).1
      = { new_editor with filename := some [], dirty := true } :=
  (c7_save_failure false true { new_editor with filename := some [], dirty := true }).1
    "create failed".data rfl

/-! ## Helper lemmas about list surgery -/

theorem set_append_len {α : Type} : ∀ (l1 : List α) (b x : α) (l2 : List α),
    (l1 ++ b :: l2).set l1.length x = l1 ++ x :: l2
  | [], _, _, _ => rfl
  | a :: t, b, x, l2 => by
    simp only [List.cons_append, List.length_cons, List.set_cons_succ,
      set_append_len t b x l2]

theorem getD_concat_len {α : Type} : ∀ (l : List α) (a d : α), (l ++ [a]).getD l.length d = a
  | [], _, _ => rfl
  | x :: t, a, d => by
    simp only [List.cons_append, List.length_cons, List.getD_cons_succ]
    exact getD_concat_len t a d

theorem getD_set_self {α : Type} : ∀ (l : List α) (i : Nat) (a d : α), i < l.length →
    (l.set i a).getD i d = a
  | [], i, _, _, h => absurd h (by simp)
  | _ :: _, 0, _, _, _ => rfl
  | x :: t, i + 1, a, d, h => by
    simp only [List.set_cons_succ, List.getD_cons_succ]
    exact getD_set_self t i a d (by simpa using h)

theorem set_getD_self {α : Type} : ∀ (l : List α) (i : Nat) (d : α), i < l.length →
    l.set i (l.getD i d) = l
  | [], i, _, h => absurd h (by simp)
  | _ :: _, 0, _, _ => rfl
  | x :: t, i + 1, d, h => by
    simp only [List.getD_cons_succ, List.set_cons_succ]
    rw [set_getD_self t i d (by simpa using h)]

theorem set_append_len' {α : Type} (l1 : List α) (b x : α) (l2 : List α) (n : Nat)
    (h : n = l1.length) : (l1 ++ b :: l2).set n x = l1 ++ x :: l2 := by
  subst h
  exact set_append_len l1 b x l2

theorem set_eraseIdx_merge {α : Type} (l : List α) (i : Nat) (x : α)
    (h0 : 0 < i) (h : i < l.length) :
    (l.set (i - 1) x).eraseIdx i = l.take (i - 1) ++ [x] ++ l.drop (i + 1) := by
  have hi1 : i - 1 < l.length := by omega
  rw [List.eraseIdx_eq_take_drop_succ, List.drop_set, if_pos (by omega), List.set_take]
  have ht : l.take i = l.take (i - 1) ++ [l[i - 1]] := by
    rw [← List.concat_eq_append, List.take_concat_get l (i - 1) hi1]
    congr 1
    omega
  have hlen : (l.take (i - 1)).length = i - 1 := by
    simp only [List.length_take]
    omega
  rw [ht, set_append_len' _ _ _ _ _ hlen.symm]

/-- Claim C9 (confirmed): `del_char` is the identity at the very start of the
buffer and on the virtual trailing line (`cy = len(lines)`, the only in-invariant
"past the last line" position — the source compares `cy == rows.len()`); at
`cy > 0, cx = 0` it replaces lines `cy-1, cy` by their concatenation, moves the
cursor to the end of what was line `cy-1`, and sets dirty; every mutating branch
sets the dirty flag. -/
theorem c9_del_char (st : EState) :
    (st.cy = 0 → st.cx = 0 → del_char st = st) ∧
    (st.cy = st.rows.length → del_char st = st) ∧
    (0 < st.cy → st.cx = 0 → st.cy < st.rows.length →
      (del_char st).rows
          = st.rows.take (st.cy - 1)
              ++ [st.rows.getD (st.cy - 1) [] ++ st.rows.getD st.cy []]
              ++ st.rows.drop (st.cy + 1) ∧
      (del_char st).cy = st.cy - 1 ∧
      (del_char st).cx = (st.rows.getD (st.cy - 1) []).length ∧
      (del_char st).dirty = true) ∧
    (del_char st ≠ st → (del_char st).dirty = true) := by
  refine ⟨?_, ?_, ?_, ?_⟩
  · intro h1 h2
    unfold del_char
    split_ifs <;> simp_all
  · intro h
    unfold del_char
    rw [if_pos h]
  · intro h1 h2 h3
    have hne1 : ¬ st.cy = st.rows.length := by omega
    have hne2 : ¬ (st.cx = 0 ∧ st.cy = 0) := fun ⟨_, hb⟩ => by omega
    have hne3 : ¬ 0 < st.cx := by omega
    simp only [del_char, if_neg hne1, if_neg hne2, if_neg hne3]
    exact ⟨set_eraseIdx_merge st.rows st.cy _ h1 h3, trivial, trivial, trivial⟩
  · intro h
    revert h
    unfold del_char
    split_ifs <;> intro h
    · exact absurd rfl h
    · exact absurd rfl h
    · rfl
    · rfl

/-- Concrete three-line state used to witness the line-merge branch of C9. -/
def c9W : EState := { new_editor with rows := ["ab".data, "cd".data, "ef".data], cy := 1 }

/-- Claim C9, witness: the merge clause at a concrete three-line buffer with the
cursor at the start of the middle line. -/
theorem c9_witness :
    (del_char c9W).rows
        = c9W.rows.take (c9W.cy - 1)
            ++ [c9W.rows.getD (c9W.cy - 1) [] ++ c9W.rows.getD c9W.cy []]
            ++ c9W.rows.drop (c9W.cy + 1) ∧
      (del_char c9W).cy = c9W.cy - 1 ∧
      (del_char c9W).cx = (c9W.rows.getD (c9W.cy - 1) []).length ∧
      (del_char c9W).dirty = true :=
  (c9_del_char c9W).2.2.1 (by decide) (by decide) (by decide)

theorem take_splice {α : Type} (row : List α) (cx : Nat) (c : α) (h : cx ≤ row.length) :
    (row.take cx ++ c :: row.drop cx).take cx = row.take cx := by
  apply List.take_left'
  simp only [List.length_take]
  omega

theorem drop_splice {α : Type} (row : List α) (cx : Nat) (c : α) (h : cx ≤ row.length) :
    (row.take cx ++ c :: row.drop cx).drop (cx + 1) = row.drop cx := by
  rw [show row.take cx ++ c :: row.drop cx = (row.take cx ++ [c]) ++ row.drop cx by
    simp [List.append_assoc]]
  apply List.drop_left'
  simp only [List.length_append, List.length_take, List.length_cons, List.length_nil]
  omega

/-- `insert_char` on a real line splices the character in at the cursor (the
append-at-end branch coincides with the splice when `cx = len(row)`). -/
theorem insert_char_lt (st : EState) (c : Char) (hlt : st.cy < st.rows.length) :
    insert_char st c = { st with
      rows := st.rows.set st.cy
        ((st.rows.getD st.cy []).take st.cx ++ c :: (st.rows.getD st.cy []).drop st.cx),
      cx := st.cx + 1, dirty := true } := by
  simp only [insert_char, if_neg (show ¬ st.cy = st.rows.length by omega)]
  split_ifs with hle
  · rw [List.take_of_length_le hle, List.drop_eq_nil_of_le hle]
  · rw [List.append_assoc]
    rfl

/-- `insert_char` on the virtual trailing line appends a fresh one-character
line. -/
theorem insert_char_virt (st : EState) (c : Char) (heq : st.cy = st.rows.length) :
    insert_char st c = { st with rows := st.rows ++ [[c]], cx := st.cx + 1, dirty := true } := by
  simp only [insert_char, if_pos heq]
  have hrow : (st.rows ++ [[]]).getD st.cy ([] : Row) = [] := by
    rw [heq]
    exact getD_concat_len st.rows [] []
  rw [hrow, if_pos (show ([] : Row).length ≤ st.cx from Nat.zero_le _)]
  rw [set_append_len' st.rows [] ([] ++ [c]) [] st.cy (by rw [heq])]
  rfl

/-- Claim C8 (amended): under the cursor invariant (with `cx = 0` on the virtual
trailing line), `insert_char` followed by `del_char` at the resulting cursor
position restores the cursor exactly and restores the buffer exactly when the
cursor was on a real line; when it was on the virtual trailing line the buffer
additionally keeps one appended empty line. -/
theorem c8_insert_delete (st : EState) (c : Char) (h : cursor_inv_strong st) :
    (del_char (insert_char st c)).cx = st.cx ∧
    (del_char (insert_char st c)).cy = st.cy ∧
    (st.cy < st.rows.length → (del_char (insert_char st c)).rows = st.rows) ∧
    (st.cy = st.rows.length → (del_char (insert_char st c)).rows = st.rows ++ [[]]) := by
  obtain ⟨hcy, hcx, hvirt⟩ := h
  rcases Nat.lt_or_ge st.cy st.rows.length with hlt | hge
  · -- the cursor sits on a real line
    have hrowle : st.cx ≤ (st.rows.getD st.cy []).length := hcx hlt
    rw [insert_char_lt st c hlt]
    simp only [del_char, List.length_set]
    rw [if_neg (show ¬ st.cy = st.rows.length by omega)]
    rw [if_neg (show ¬ (st.cx + 1 = 0 ∧ st.cy = 0) from fun ⟨ha, _⟩ => by omega)]
    rw [if_pos (show 0 < st.cx + 1 from by omega)]
    have hgd : (st.rows.set st.cy
          ((st.rows.getD st.cy []).take st.cx ++ c :: (st.rows.getD st.cy []).drop st.cx)).getD
          st.cy ([] : Row)
        = (st.rows.getD st.cy []).take st.cx ++ c :: (st.rows.getD st.cy []).drop st.cx :=
      getD_set_self _ _ _ _ (by simpa using hlt)
    rw [hgd]
    refine ⟨rfl, rfl, fun _ => ?_, fun habs => absurd habs (by omega)⟩
    show (st.rows.set st.cy _).set st.cy _ = st.rows
    rw [List.set_set,
      show st.cx + 1 - 1 = st.cx from rfl,
      take_splice _ _ _ hrowle, drop_splice _ _ _ hrowle,
      List.take_append_drop]
    exact set_getD_self st.rows st.cy [] hlt
  · -- the cursor sits on the virtual trailing line
    have heq : st.cy = st.rows.length := Nat.le_antisymm hcy hge
    have hcx0 : st.cx = 0 := hvirt heq
    rw [insert_char_virt st c heq]
    simp only [del_char, List.length_append, List.length_cons, List.length_nil]
    rw [if_neg (show ¬ st.cy = st.rows.length + (0 + 1) by omega)]
    rw [if_neg (show ¬ (st.cx + 1 = 0 ∧ st.cy = 0) from fun ⟨ha, _⟩ => by omega)]
    rw [if_pos (show 0 < st.cx + 1 from by omega)]
    have hgd : (st.rows ++ [[c]]).getD st.cy ([] : Row) = [c] := by
      rw [heq]
      exact getD_concat_len st.rows [c] []
    rw [hgd, hcx0]
    refine ⟨rfl, rfl, fun habs => absurd habs (by omega), fun _ => ?_⟩
    show (st.rows ++ [[c]]).set st.cy (([c] : Row).take (0 + 1 - 1) ++ ([c] : Row).drop (0 + 1))
        = st.rows ++ [[]]
    rw [set_append_len' st.rows [c] _ [] st.cy (by rw [heq])]
    rfl

/-- Claim C8, counterexample: from the empty buffer (which satisfies both the
claimed and the strengthened cursor invariant) inserting `a` and deleting it
restores the cursor but not the buffer — an empty line remains. -/
theorem c8_counterexample :
    cursor_inv new_editor ∧ cursor_inv_strong new_editor ∧
    (del_char (insert_char new_editor 'a')).cx = new_editor.cx ∧
    (del_char (insert_char new_editor 'a')).cy = new_editor.cy ∧
    (del_char (insert_char new_editor 'a')).rows ≠ new_editor.rows :=
  ⟨by decide, by decide, by decide, by decide, by decide⟩

/-- Concrete one-line state used to witness C8. -/
def c8W : EState := { new_editor with rows := ["ab".data], cy := 0, cx := 1 }

/-- Claim C8, witness: the round trip at a concrete mid-line position. -/
theorem c8_witness :
    (del_char (insert_char c8W 'z')).cx = c8W.cx ∧
    (del_char (insert_char c8W 'z')).cy = c8W.cy ∧
    (c8W.cy < c8W.rows.length → (del_char (insert_char c8W 'z')).rows = c8W.rows) ∧
    (c8W.cy = c8W.rows.length → (del_char (insert_char c8W 'z')).rows = c8W.rows ++ [[]]) :=
  c8_insert_delete c8W 'z' (by decide)

/-- With the buffer dirty and the counter positive, a quit-key press only warns
and decrements the counter. -/
theorem process_key_quit_warn (createOk writeOk : Bool) (st : EState)
    (hd : st.dirty = true) (hq : 0 < st.quit_times) :
    process_key createOk writeOk st (.Ctrl 0x71)
      = some { st with status_msg := quit_warning st.quit_times,
                       quit_times := st.quit_times - 1 } := by
  unfold process_key
  rw [if_pos rfl, if_pos (show (st.dirty = true) ∧ 0 < st.quit_times from ⟨hd, hq⟩)]

/-- Claim C1 (amended): with the buffer dirty and the counter at its maximum of
3, three consecutive quit-key presses leave the editor running with the counter
at 0 (each press warns and decrements), and it is the fourth consecutive press
that terminates the process; any non-quit key resets the counter to 3. -/
theorem c1_quit_requires_four (createOk writeOk : Bool) (st : EState)
    (hd : st.dirty = true) (hq : st.quit_times = 3) :
    (∀ s : EState, press_quit createOk writeOk 3 (some st) = some s → s.quit_times = 0) ∧
    press_quit createOk writeOk 3 (some st) ≠ none ∧
    press_quit createOk writeOk 4 (some st) = none ∧
    (∀ (k : Key) (st' : EState), k ≠ .Ctrl 0x71 →
      process_key createOk writeOk st k = some st' → st'.quit_times = QUIT_TIMES) := by
  set s1 : EState := { st with status_msg := quit_warning st.quit_times,
                               quit_times := st.quit_times - 1 } with hs1
  set s2 : EState := { s1 with status_msg := quit_warning s1.quit_times,
                               quit_times := s1.quit_times - 1 } with hs2
  set s3 : EState := { s2 with status_msg := quit_warning s2.quit_times,
                               quit_times := s2.quit_times - 1 } with hs3
  have e1 : process_key createOk writeOk st (.Ctrl 0x71) = some s1 :=
    process_key_quit_warn createOk writeOk st hd (by omega)
  have e2 : process_key createOk writeOk s1 (.Ctrl 0x71) = some s2 :=
    process_key_quit_warn createOk writeOk s1 hd (by show 0 < st.quit_times - 1; omega)
  have e3 : process_key createOk writeOk s2 (.Ctrl 0x71) = some s3 :=
    process_key_quit_warn createOk writeOk s2 hd (by show 0 < st.quit_times - 1 - 1; omega)
  have hq3 : s3.quit_times = 0 := by
    show st.quit_times - 1 - 1 - 1 = 0
    omega
  have e4 : process_key createOk writeOk s3 (.Ctrl 0x71) = none := by
    unfold process_key
    rw [if_pos rfl, if_neg]
    rintro ⟨-, hlt⟩
    omega
  have hc3 : press_quit createOk writeOk 3 (some st) = some s3 := by
    simp [press_quit, e1, e2, e3]
  have hc4 : press_quit createOk writeOk 4 (some st) = none := by
    simp [press_quit, e1, e2, e3, e4]
  refine ⟨fun s h => ?_, ?_, hc4, ?_⟩
  · rw [hc3] at h
    cases h
    exact hq3
  · rw [hc3]
    simp
  · intro k st' hk h
    unfold process_key at h
    rw [if_neg hk] at h
    cases h
    rfl

/-- Claim C1, counterexample: from a dirty fresh editor (counter at 3), three
consecutive quit-key presses do not terminate the process (a fourth does). -/
theorem c1_counterexample :
    press_quit true true 3 (some { new_editor with dirty := true }) ≠ none ∧
    press_quit true true 4 (some { new_editor with dirty := true }) = none :=
  ⟨by decide, by decide⟩

/-- Claim C1, witness: the amended claim at the dirty fresh editor. -/
theorem c1_witness :
    (∀ s : EState,
        press_quit true true 3 (some { new_editor with dirty := true }) = some s →
        s.quit_times = 0) ∧
    press_quit true true 3 (some { new_editor with dirty := true }) ≠ none ∧
    press_quit true true 4 (some { new_editor with dirty := true }) = none ∧
    (∀ (k : Key) (st' : EState), k ≠ .Ctrl 0x71 →
      process_key true true { new_editor with dirty := true } k = some st' →
      st'.quit_times = QUIT_TIMES) :=
  c1_quit_requires_four true true { new_editor with dirty := true } rfl rfl

/-! ## Cursor-invariant preservation (C6) -/

theorem inv_strong_of_eq (st st' : EState) (hr : st'.rows = st.rows)
    (hx : st'.cx = st.cx) (hy : st'.cy = st.cy) (h : cursor_inv_strong st) :
    cursor_inv_strong st' := by
  unfold cursor_inv_strong at h ⊢
  rw [hr, hx, hy]
  exact h

theorem clamp_cx_inv (st : EState) (h : st.cy ≤ st.rows.length) :
    cursor_inv_strong (clamp_cx st) := by
  obtain ⟨rows, cx, cy, rx, rowoff, coloff, numrows, numcols, dirty, qt, fn, msg⟩ := st
  unfold clamp_cx cursor_inv_strong at *
  dsimp only at *
  split_ifs <;> dsimp only <;> refine ⟨by omega, fun h1 => by omega, fun h2 => by omega⟩

theorem move_cursor_step_cy (st : EState) (k : Key) (h : st.cy ≤ st.rows.length) :
    (move_cursor_step st k).cy ≤ (move_cursor_step st k).rows.length := by
  obtain ⟨rows, cx, cy, rx, rowoff, coloff, numrows, numcols, dirty, qt, fn, msg⟩ := st
  unfold move_cursor_step at *
  cases k <;> dsimp only at * <;> try omega
  all_goals split_ifs <;> dsimp only <;> omega

theorem move_cursor_inv (st : EState) (k : Key) (h : st.cy ≤ st.rows.length) :
    cursor_inv_strong (move_cursor st k) :=
  clamp_cx_inv (move_cursor_step st k) (move_cursor_step_cy st k h)

theorem iter_move_inv (n : Nat) (k : Key) :
    ∀ st : EState, st.cy ≤ st.rows.length → 1 ≤ n → cursor_inv_strong (iter_move st k n) := by
  induction n with
  | zero => intro st h hm; exact absurd hm (by omega)
  | succ m ih =>
    intro st h hm
    show cursor_inv_strong (iter_move (move_cursor st k) k m)
    rcases Nat.eq_zero_or_pos m with rfl | hmpos
    · exact move_cursor_inv st k h
    · exact ih (move_cursor st k) (move_cursor_inv st k h).1 hmpos

theorem getD_append_cons {α : Type} : ∀ (l1 : List α) (b : α) (l2 : List α) (d : α),
    (l1 ++ b :: l2).getD l1.length d = b
  | [], _, _, _ => rfl
  | x :: t, b, l2, d => by
    simp only [List.cons_append, List.length_cons, List.getD_cons_succ]
    exact getD_append_cons t b l2 d

theorem getD_append_cons' {α : Type} (l1 : List α) (b : α) (l2 : List α) (d : α) (n : Nat)
    (h : n = l1.length) : (l1 ++ b :: l2).getD n d = b := by
  subst h
  exact getD_append_cons l1 b l2 d

theorem insert_char_inv (st : EState) (c : Char) (h : cursor_inv_strong st) :
    cursor_inv_strong (insert_char st c) := by
  obtain ⟨hcy, hcx, hvirt⟩ := h
  rcases Nat.lt_or_ge st.cy st.rows.length with hlt | hge
  · have hrowle := hcx hlt
    rw [insert_char_lt st c hlt]
    obtain ⟨rows, cx, cy, rx, rowoff, coloff, numrows, numcols, dirty, qt, fn, msg⟩ := st
    unfold cursor_inv_strong
    dsimp only at *
    simp only [List.length_set] at *
    refine ⟨by omega, fun h1 => ?_, fun h2 => by omega⟩
    rw [getD_set_self _ _ _ _ (by omega)]
    simp only [List.length_append, List.length_take, List.length_cons, List.length_drop]
    omega
  · have heq := Nat.le_antisymm hcy hge
    have hcx0 := hvirt heq
    rw [insert_char_virt st c heq]
    obtain ⟨rows, cx, cy, rx, rowoff, coloff, numrows, numcols, dirty, qt, fn, msg⟩ := st
    unfold cursor_inv_strong
    dsimp only at *
    simp only [List.length_append, List.length_cons, List.length_nil] at *
    refine ⟨by omega, fun h1 => ?_, fun h2 => by omega⟩
    rw [getD_append_cons' rows [c] [] [] cy heq]
    simp only [List.length_cons, List.length_nil]
    omega

theorem del_char_inv (st : EState) (h : cursor_inv_strong st) :
    cursor_inv_strong (del_char st) := by
  obtain ⟨hcy, hcx, hvirt⟩ := h
  simp only [del_char]
  split_ifs with h1 h2 h3
  · exact ⟨hcy, hcx, hvirt⟩
  · exact ⟨hcy, hcx, hvirt⟩
  · -- character-delete branch: the cursor is on a real line
    have hlt : st.cy < st.rows.length := by omega
    have hle := hcx hlt
    obtain ⟨rows, cx, cy, rx, rowoff, coloff, numrows, numcols, dirty, qt, fn, msg⟩ := st
    unfold cursor_inv_strong
    dsimp only at *
    simp only [List.length_set] at *
    refine ⟨by omega, fun hl => ?_, fun he => by omega⟩
    rw [getD_set_self _ _ _ _ (by omega)]
    simp only [List.length_append, List.length_take, List.length_drop]
    omega
  · -- line-merge branch
    have hcy0 : 0 < st.cy := by
      rcases Nat.eq_zero_or_pos st.cy with h0 | h0
      · exact absurd ⟨by omega, h0⟩ h2
      · exact h0
    have hlt : st.cy < st.rows.length := by omega
    obtain ⟨rows, cx, cy, rx, rowoff, coloff, numrows, numcols, dirty, qt, fn, msg⟩ := st
    unfold cursor_inv_strong
    dsimp only at *
    rw [set_eraseIdx_merge rows cy _ hcy0 hlt]
    have hlen :
        (rows.take (cy - 1) ++ [rows.getD (cy - 1) [] ++ rows.getD cy []]
            ++ rows.drop (cy + 1)).length = rows.length - 1 := by
      simp only [List.length_append, List.length_take, List.length_cons, List.length_nil,
        List.length_drop]
      omega
    rw [hlen]
    refine ⟨by omega, fun hl => ?_, fun he => by omega⟩
    rw [List.append_assoc, List.singleton_append,
      getD_append_cons' _ _ _ _ (cy - 1) (by simp only [List.length_take]; omega)]
    simp only [List.length_append]
    omega

theorem save_fields (createOk writeOk : Bool) (st : EState) :
    (save createOk writeOk st).1.rows = st.rows ∧ (save createOk writeOk st).1.cx = st.cx ∧
      (save createOk writeOk st).1.cy = st.cy := by
  unfold save
  cases hf : st.filename with
  | none => exact ⟨rfl, rfl, rfl⟩
  | some p => split_ifs <;> exact ⟨rfl, rfl, rfl⟩

theorem save_arm_inv (createOk writeOk : Bool) (st : EState) (h : cursor_inv_strong st) :
    cursor_inv_strong (save_arm createOk writeOk st) := by
  obtain ⟨hr, hx, hy⟩ := save_fields createOk writeOk st
  unfold save_arm
  cases hs : save createOk writeOk st with
  | mk st1 res =>
    rw [hs] at hr hx hy
    cases res <;> exact inv_strong_of_eq st _ hr hx hy h

/-- Every arm of the key dispatch preserves the strengthened cursor invariant,
given the scroll-established viewport facts `rowoff ≤ len(lines)` and a
viewport of at least one row. -/
theorem dispatch_key_inv (createOk writeOk : Bool) (st : EState) (k : Key)
    (h : cursor_inv_strong st) (hrow : st.rowoff ≤ st.rows.length)
    (hnr : 1 ≤ st.numrows) : cursor_inv_strong (dispatch_key createOk writeOk st k) := by
  cases k with
  | Up => exact move_cursor_inv st .Up h.1
  | Down => exact move_cursor_inv st .Down h.1
  | Left => exact move_cursor_inv st .Left h.1
  | Right => exact move_cursor_inv st .Right h.1
  | PageUp => exact iter_move_inv st.numrows .Up _ (by simpa using hrow) hnr
  | PageDown =>
    apply iter_move_inv st.numrows .Down _ _ hnr
    show (if st.rows.length < st.rowoff + st.numrows - 1 then st.rows.length
          else st.rowoff + st.numrows - 1) ≤ st.rows.length
    split_ifs <;> omega
  | Home => exact ⟨h.1, fun _ => Nat.zero_le _, fun _ => rfl⟩
  | End =>
    show cursor_inv_strong
      (if st.cy < st.rows.length then { st with cx := (st.rows.getD st.cy []).length }
       else { st with cx := 0 })
    split_ifs with hlt
    · exact ⟨h.1, fun _ => Nat.le_refl _,
        fun he => absurd (show st.cy = st.rows.length from he) (by omega)⟩
    · exact ⟨h.1, fun hl => absurd (show st.cy < st.rows.length from hl) hlt, fun _ => rfl⟩
  | Ctrl b =>
    show cursor_inv_strong
      (if b = 0x73 then save_arm createOk writeOk st
       else if b = 0x68 then del_char st
       else if b = 0x6c then st else st)
    split_ifs
    · exact save_arm_inv createOk writeOk st h
    · exact del_char_inv st h
    · exact h
    · exact h
  | Char b =>
    show cursor_inv_strong
      (if b = 0x0d then st else if b = 0x1b then st else insert_char st (Char.ofNat b))
    split_ifs
    · exact h
    · exact h
    · exact insert_char_inv st _ h
  | Backspace => exact del_char_inv st h
  | Del => exact del_char_inv _ (move_cursor_inv st .Right h.1)
  | Return => exact h

/-- Claim C6 (amended): under the cursor invariant strengthened with `cx = 0` on
the virtual trailing line, every key handled by `process_key` — cursor moves,
page moves, Home/End, insert, delete, save, quit warning — preserves the
invariant, for states with `row_offset ≤ len(lines)` and viewport height ≥ 1
(both established by `scroll`, which runs before every key is processed). -/
theorem c6_cursor_inv_preserved (createOk writeOk : Bool) (st : EState) (k : Key)
    (st' : EState) (h : cursor_inv_strong st) (hrow : st.rowoff ≤ st.rows.length)
    (hnr : 1 ≤ st.numrows) (hp : process_key createOk writeOk st k = some st') :
    cursor_inv_strong st' := by
  unfold process_key at hp
  by_cases hk : k = .Ctrl 0x71
  · rw [if_pos hk] at hp
    split_ifs at hp
    cases hp
    exact inv_strong_of_eq st _ rfl rfl rfl h
  · rw [if_neg hk] at hp
    cases hp
    exact inv_strong_of_eq (dispatch_key createOk writeOk st k) _ rfl rfl rfl
      (dispatch_key_inv createOk writeOk st k h hrow hnr)

/-- Claim C6, counterexample: the invariant exactly as claimed does not
constrain `cx` on the virtual trailing line, and from such a state
(`rows = []`, `cx = 5`, which satisfies the claimed invariant) inserting a
character produces a state that violates it (`cx = 6` on a one-character line). -/
theorem c6_counterexample :
    cursor_inv { new_editor with cx := 5 } ∧
    ∀ st' : EState, process_key true true { new_editor with cx := 5 } (.Char 97) = some st' →
      ¬ cursor_inv st' :=
  ⟨by decide, by decide⟩

/-- Claim C6, witness: the preservation theorem applied to the Home key on the
fresh editor. -/
theorem c6_witness :
    cursor_inv_strong
      { dispatch_key true true new_editor Key.Home with quit_times := QUIT_TIMES } :=
  c6_cursor_inv_preserved true true new_editor .Home
    { dispatch_key true true new_editor Key.Home with quit_times := QUIT_TIMES }
    (by decide) (by decide) (by decide) rfl

end Kilo
